import Mathlib

/-!
# tfaudit: the Terraform Cloud audit-trail viewer (`main.go`)

A shallow embedding of `run` and `fetchAuditEvents` from `main.go`.

* Go `string` values are Lean strings (so they hold valid UTF-8; the bytes of a
  string are its UTF-8 encoding), Go `int` values are integers; the two places
  where `main.go` does arithmetic on an `int` (`lineNumber++` and `-since`) wrap
  to 64 bits.
* Writes to standard output, the calls of `fetchAuditEvents`, the requests
  handed to the HTTP client and the state of the terminal widgets are explicit
  components of the value `run` returns.
* What the outside world decides (the clock, the HTTP round trip, the JSON
  decoder, the terminal event loop) is a field of `Env`.
* The parts of the libraries `main.go` calls (`fmt`, `net/url`, `net/http`,
  `tview`, `tcell`) that decide what the program does are modelled by the
  definitions of the first sections, each named after the library function.
-/

namespace TfAudit

/-! ## Go basics -/

/-- Two's complement wrap of an integer to the range of a 64-bit Go `int`. -/
def wrapInt64 (x : Int) : Int := (x + 2 ^ 63) % 2 ^ 64 - 2 ^ 63

/-- The verb `%d` of package `fmt` on an `int`: decimal digits, with a leading
minus sign for a negative number. -/
def sprintfD (x : Int) : String :=
  if x < 0 then "-" ++ Nat.repr x.natAbs else Nat.repr x.toNat

/-- A Go `error` value; `msg` is what its `Error()` method returns. -/
structure GoError where
  msg : String
  deriving DecidableEq, Repr

/-- The call `fmt.Errorf("unexpected response status: %d", code)`. -/
def errUnexpectedStatus (code : Int) : GoError :=
  ⟨"unexpected response status: " ++ sprintfD code⟩

/-- A byte slice (`[]byte`), one number below 256 per byte. -/
abbrev Bytes := List Nat

/-! ## Data model (`main.go`, lines 19 to 51) -/

/-- The struct `Auth`. -/
structure Auth where
  AccessorID : String
  Description : String
  Type_ : String
  ImpersonatorID : String
  OrganizationID : String
  OrganizationName : String
  deriving DecidableEq, Repr

/-- The struct `Request` of `main.go` (the request id of an audit event). -/
structure Request where
  ID : String
  deriving DecidableEq, Repr

/-- The struct `Resource`; `μ` is the type of the decoded `meta` payload
(`interface{}` in the source). -/
structure Resource (μ : Type) where
  ID : String
  Type_ : String
  Action : String
  Meta : μ
  deriving DecidableEq, Repr

/-- The struct `AuditEvent`; `τ` is the type of `time.Time` values. -/
structure AuditEvent (τ μ : Type) where
  ID : String
  Version : String
  Type_ : String
  Timestamp : τ
  Auth : Auth
  Request : Request
  Resource : Resource μ
  deriving DecidableEq, Repr

/-- The struct `ResponseData`. A nil slice and an empty slice both have length
zero and are both the empty list. -/
structure ResponseData (τ μ : Type) where
  Data : List (AuditEvent τ μ)
  deriving DecidableEq, Repr

/-! ## tcell and tview -/

/-- The `tcell.Color` values the program uses; `Default` is the zero value and
`White` is the primary text colour a new table cell starts with. -/
inductive Color where
  | Default | White | Gray | DarkMagenta | DarkCyan | Olive | Teal | DarkBlue | DarkGreen
  deriving DecidableEq, Repr

/-- A `tview.TableCell`: its text and its text colour. -/
structure TableCell where
  Text : String
  Color : Color
  deriving DecidableEq, Repr

/-- The zero value `&TableCell{}` that `SetCell` puts in skipped columns. -/
def emptyCell : TableCell := ⟨"", Color.Default⟩

/-- The constructor `tview.NewTableCell(text)`. -/
def NewTableCell (text : String) : TableCell := ⟨text, Color.White⟩

/-- The method `TableCell.SetTextColor`. -/
def TableCell.SetTextColor (c : TableCell) (color : TfAudit.Color) : TableCell :=
  { c with Color := color }

/-- A `tview.Table`: the two settings `run` makes and the cells, row by row. -/
structure Table where
  borders : Bool
  rowsSelectable : Bool
  columnsSelectable : Bool
  cells : List (List TableCell)
  deriving DecidableEq, Repr

/-- The constructor `tview.NewTable()`. -/
def NewTable : Table := ⟨false, false, false, []⟩

/-- The method `Table.SetBorders`. -/
def Table.SetBorders (t : Table) (show_ : Bool) : Table := { t with borders := show_ }

/-- The method `Table.SetSelectable`. -/
def Table.SetSelectable (t : Table) (rows columns : Bool) : Table :=
  { t with rowsSelectable := rows, columnsSelectable := columns }

/-- The method `Table.GetRowCount`: the number of rows of the cell store. -/
def Table.GetRowCount (t : Table) : Nat := t.cells.length

/-- The method `Table.SetCell`: the cell store grows by empty rows up to `row`,
the row grows by zero-value cells up to `column`, then the cell is stored. -/
def Table.SetCell (t : Table) (row column : Nat) (cell : TableCell) : Table :=
  let cells :=
    if row ≥ t.cells.length then
      t.cells ++ List.replicate (row - t.cells.length + 1) []
    else t.cells
  let r := cells.getD row []
  let r :=
    if column ≥ r.length then r ++ List.replicate (column - r.length + 1) emptyCell
    else r
  { t with cells := cells.set row (r.set column cell) }

/-- A `tview.TextView`: its text and its dynamic-colours setting. -/
structure TextView where
  text : String
  dynamicColors : Bool
  deriving DecidableEq, Repr

/-- The constructor `tview.NewTextView()`. -/
def NewTextView : TextView := ⟨"", false⟩

/-- The method `TextView.SetText`. -/
def TextView.SetText (v : TextView) (text : String) : TextView := { v with text := text }

/-- The method `TextView.SetDynamicColors`. -/
def TextView.SetDynamicColors (v : TextView) (dynamic : Bool) : TextView :=
  { v with dynamicColors := dynamic }

/-- The widgets (`tview.Primitive`) the program puts in its layout. -/
inductive Primitive where
  | textView (v : TextView)
  | table (t : Table)
  deriving DecidableEq, Repr

/-- One entry of a `tview.Flex`: the arguments of `AddItem`. -/
structure FlexItem where
  Item : Primitive
  FixedSize : Int
  Proportion : Int
  Focus : Bool
  deriving DecidableEq, Repr

/-- The two directions of a `tview.Flex`. With `FlexRow` the items are stacked
one below the other, so `FixedSize` is a number of lines. -/
inductive FlexDirection where
  | FlexRow | FlexColumn
  deriving DecidableEq, Repr

/-- A `tview.Flex`: its direction and its items in the order they were added. -/
structure Flex where
  direction : FlexDirection
  items : List FlexItem
  deriving DecidableEq, Repr

/-- The constructor `tview.NewFlex()`; a new flex lays out in columns. -/
def NewFlex : Flex := ⟨FlexDirection.FlexColumn, []⟩

/-- The method `Flex.SetDirection`. -/
def Flex.SetDirection (f : Flex) (d : FlexDirection) : Flex := { f with direction := d }

/-- The method `Flex.AddItem`: the item goes to the end of the list. -/
def Flex.AddItem (f : Flex) (item : Primitive) (fixedSize proportion : Int) (focus : Bool) :
    Flex :=
  { f with items := f.items ++ [⟨item, fixedSize, proportion, focus⟩] }

/-- A `tcell.EventKey`: modifier mask, key code and rune. -/
structure EventKey where
  mod : Nat
  key : Nat
  ch : Nat
  deriving DecidableEq, Repr

/-- The method `EventKey.Key`. -/
def EventKey.Key (e : EventKey) : Nat := e.key

/-- The constant `tcell.KeyEscape`. -/
def KeyEscape : Nat := 27

/-- The calls a key handler makes on the application it has captured. -/
inductive AppCall where
  | Stop
  deriving DecidableEq, Repr

/-- What can hold the keyboard focus: the layout or one of its widgets. -/
inductive FocusTarget where
  | flex (f : Flex)
  | primitive (p : Primitive)
  deriving DecidableEq, Repr

/-- A `tview.Application`: root widget, full-screen flag, focus, the installed
key handler (which returns the calls it made on the application and the event it
hands on), and whether `Run` was called. -/
structure Application where
  root : Option Flex
  rootFullscreen : Bool
  focus : Option FocusTarget
  inputCapture : Option (EventKey → List AppCall × EventKey)
  ran : Bool

/-- The constructor `tview.NewApplication()`. -/
def NewApplication : Application := ⟨none, false, none, none, false⟩

/-- The method `Application.SetRoot`: stores the root and gives it the focus. -/
def Application.SetRoot (a : Application) (root : Flex) (fullscreen : Bool) : Application :=
  { a with root := some root, rootFullscreen := fullscreen, focus := some (FocusTarget.flex root) }

/-- The method `Application.SetFocus`. -/
def Application.SetFocus (a : Application) (p : Primitive) : Application :=
  { a with focus := some (FocusTarget.primitive p) }

/-- The method `Application.SetInputCapture`. -/
def Application.SetInputCapture (a : Application)
    (capture : EventKey → List AppCall × EventKey) : Application :=
  { a with inputCapture := some capture }

/-- The method `Application.Run`: the event loop is the environment's part,
the model records that it was entered. -/
def Application.markRun (a : Application) : Application := { a with ran := true }

/-! ## net/url -/

/-- The UTF-8 bytes of one character. -/
def utf8Bytes (c : Char) : Bytes :=
  let n := c.toNat
  if n < 0x80 then [n]
  else if n < 0x800 then [0xC0 + n / 64, 0x80 + n % 64]
  else if n < 0x10000 then [0xE0 + n / 4096, 0x80 + n / 64 % 64, 0x80 + n % 64]
  else [0xF0 + n / 262144, 0x80 + n / 4096 % 64, 0x80 + n / 64 % 64, 0x80 + n % 64]

/-- The bytes of a Go string (its UTF-8 encoding). -/
def stringBytes (s : String) : Bytes := s.data.flatMap utf8Bytes

/-- The function `shouldEscape(c, encodeQueryComponent)` of `net/url`: only
letters, digits and `-`, `_`, `.`, `~` are left as they are. -/
def shouldEscape (c : Nat) : Bool :=
  if (97 ≤ c ∧ c ≤ 122) ∨ (65 ≤ c ∧ c ≤ 90) ∨ (48 ≤ c ∧ c ≤ 57) then false
  else if c = 45 ∨ c = 95 ∨ c = 46 ∨ c = 126 then false
  else true

/-- The digit string `upperhex` of `net/url`, indexed by a nibble. -/
def upperhex (n : Nat) : Char := "0123456789ABCDEF".data.getD n '0'

/-- One byte as `escape(s, encodeQueryComponent)` writes it: a space becomes
`+`, a byte to escape becomes `%XX`, any other byte is copied. -/
def escapeByte (c : Nat) : List Char :=
  if c = 32 then ['+']
  else if shouldEscape c then ['%', upperhex (c / 16), upperhex (c % 16)]
  else [Char.ofNat c]

/-- The function `url.QueryEscape`. -/
def QueryEscape (s : String) : String := ⟨(stringBytes s).flatMap escapeByte⟩

/-- The function `ishex` of `net/url`. -/
def ishex (c : Nat) : Bool :=
  (48 ≤ c ∧ c ≤ 57) ∨ (97 ≤ c ∧ c ≤ 102) ∨ (65 ≤ c ∧ c ≤ 70)

/-- The function `unhex` of `net/url`. -/
def unhex (c : Nat) : Nat :=
  if 48 ≤ c ∧ c ≤ 57 then c - 48
  else if 97 ≤ c ∧ c ≤ 102 then c - 97 + 10
  else if 65 ≤ c ∧ c ≤ 70 then c - 65 + 10
  else 0

/-- The function `unescape(s, encodeQueryComponent)` on bytes: `%XX` becomes
the byte `XX`, `+` becomes a space, a malformed escape is an error. -/
def unescapeBytes : Bytes → Option Bytes
  | [] => some []
  | c :: rest =>
    if c = 37 then
      match rest with
      | a :: b :: rest2 =>
        if ishex a && ishex b then (unescapeBytes rest2).map (fun t => (unhex a * 16 + unhex b) :: t)
        else none
      | _ => none
    else if c = 43 then (unescapeBytes rest).map (fun t => 32 :: t)
    else (unescapeBytes rest).map (fun t => c :: t)

/-- The code point and the remaining input when the input starts with a
well-formed UTF-8 sequence (overlong forms and surrogates are refused because
the character found has to encode back to the bytes read). -/
def utf8DecodeChar : Bytes → Option (Char × Bytes)
  | [] => none
  | b0 :: rest =>
    if b0 < 0x80 then some (Char.ofNat b0, rest)
    else if b0 < 0xE0 then
      match rest with
      | b1 :: rest1 =>
        let c := Char.ofNat ((b0 - 0xC0) * 64 + (b1 - 0x80))
        if utf8Bytes c = [b0, b1] then some (c, rest1) else none
      | _ => none
    else if b0 < 0xF0 then
      match rest with
      | b1 :: b2 :: rest2 =>
        let c := Char.ofNat ((b0 - 0xE0) * 4096 + (b1 - 0x80) * 64 + (b2 - 0x80))
        if utf8Bytes c = [b0, b1, b2] then some (c, rest2) else none
      | _ => none
    else
      match rest with
      | b1 :: b2 :: b3 :: rest3 =>
        let c := Char.ofNat ((b0 - 0xF0) * 262144 + (b1 - 0x80) * 4096 + (b2 - 0x80) * 64 + (b3 - 0x80))
        if utf8Bytes c = [b0, b1, b2, b3] then some (c, rest3) else none
      | _ => none

/-- The characters of a byte string that is valid UTF-8; `fuel` bounds the
number of characters. -/
def utf8DecodeFuel : Nat → Bytes → Option (List Char)
  | _, [] => some []
  | 0, _ :: _ => none
  | fuel + 1, b :: bs =>
    match utf8DecodeChar (b :: bs) with
    | none => none
    | some (c, rest) => (utf8DecodeFuel fuel rest).map (fun t => c :: t)

/-- The Go string with the given bytes. A byte string that is not valid UTF-8
is a Go string without a counterpart among the strings of this model. -/
def bytesString (bs : Bytes) : Option String :=
  (utf8DecodeFuel bs.length bs).map String.mk

/-- The function `url.QueryUnescape`, with `none` for an error. -/
def QueryUnescape (s : String) : Option String :=
  (unescapeBytes (stringBytes s)).bind bytesString

/-- The type `url.Values`: a map from a key to its list of values, as a list
of entries with distinct keys. -/
abbrev Values := List (String × List String)

/-- The method `Values.Set`: the key gets the single value, whatever it had. -/
def Values.Set (v : Values) (key value : String) : Values :=
  v.filter (fun kv => kv.1 ≠ key) ++ [(key, [value])]

/-- The statement `m[key] = append(m[key], value)`. -/
def Values.Add (v : Values) (key value : String) : Values :=
  match v.find? (fun kv => kv.1 = key) with
  | some kv => v.filter (fun e => e.1 ≠ key) ++ [(key, kv.2 ++ [value])]
  | none => v ++ [(key, [value])]

/-- Insertion of one entry into a list of entries sorted by key. -/
def insertByKey (kv : String × List String) : Values → Values
  | [] => [kv]
  | e :: es => if kv.1 < e.1 then kv :: e :: es else e :: insertByKey kv es

/-- The entries of a map in the order of their keys, as `Values.Encode` visits
them. -/
def sortByKey (v : Values) : Values := v.foldr insertByKey []

/-- The characters `Values.Encode` writes for the entries from the given one
on; `first` tells whether the buffer is still empty. -/
def encodeEntries : Bool → Values → List Char
  | _, [] => []
  | first, (k, vs) :: es =>
    let keyEscaped := (QueryEscape k).data
    let out := vs.foldl
      (fun (acc : Bool × List Char) v =>
        (false, acc.2 ++ (if acc.1 then [] else ['&']) ++ keyEscaped ++ ['='] ++ (QueryEscape v).data))
      (first, [])
    out.2 ++ encodeEntries out.1 es

/-- The method `Values.Encode`: `key=value` pairs, both escaped, joined by `&`,
sorted by key. -/
def Values.Encode (v : Values) : String := ⟨encodeEntries true (sortByKey v)⟩

/-- The part of a list of characters before the first occurrence of `sep` and
the part after it (`strings.Cut` with a one-character separator). -/
def cutAt (sep : Char) : List Char → List Char × List Char × Bool
  | [] => ([], [], false)
  | c :: cs =>
    if c = sep then ([], cs, true)
    else
      let r := cutAt sep cs
      (c :: r.1, r.2.1, r.2.2)

/-- The loop of `parseQuery` of `net/url`, errors dropped as `URL.Query` drops
them; `fuel` bounds the number of `&`-separated pieces. -/
def parseQueryFuel : Nat → Values → List Char → Values
  | 0, m, _ => m
  | _ + 1, m, [] => m
  | fuel + 1, m, query =>
    let r := cutAt '&' query
    let key := r.1
    if key.contains ';' then parseQueryFuel fuel m r.2.1
    else if key = [] then parseQueryFuel fuel m r.2.1
    else
      let kv := cutAt '=' key
      match QueryUnescape ⟨kv.1⟩ with
      | none => parseQueryFuel fuel m r.2.1
      | some k =>
        match QueryUnescape ⟨kv.2.1⟩ with
        | none => parseQueryFuel fuel m r.2.1
        | some v => parseQueryFuel fuel (Values.Add m k v) r.2.1

/-- The function `url.ParseQuery` with its error dropped. -/
def ParseQuery (query : String) : Values :=
  parseQueryFuel (query.data.length + 1) [] query.data

/-- The fields of a `url.URL` that a URL of the form
`scheme://host/path?query` has. -/
structure URL where
  Scheme : String
  Host : String
  Path : String
  RawQuery : String
  deriving DecidableEq, Repr

/-- The method `URL.Query`. -/
def URL.Query (u : URL) : Values := ParseQuery u.RawQuery

/-- The method `URL.String` for a URL with a scheme, a host and a path that
need no escaping: `scheme://host/path`, then `?` and the raw query when there is
one. -/
def URL.String (u : URL) : String :=
  (if u.Scheme ≠ "" then u.Scheme ++ ":" else "") ++
  (if u.Scheme ≠ "" ∨ u.Host ≠ "" then
    (if u.Host ≠ "" ∨ u.Path ≠ "" then "//" else "") ++ u.Host else "") ++
  (if u.Path ≠ "" ∧ u.Path.data.head? ≠ some '/' ∧ u.Host ≠ "" then "/" else "") ++
  u.Path ++
  (if u.RawQuery ≠ "" then "?" ++ u.RawQuery else "")

/-- The function `stringContainsCTLByte` of `net/url`. -/
def stringContainsCTLByte (s : List Char) : Bool :=
  s.any (fun c => c.toNat < 0x20 ∨ c.toNat = 0x7f)

/-- The function `getScheme` of `net/url`: the scheme before the first colon
and what follows it; no scheme when a character that cannot be in a scheme comes
first; an error when the colon is the first character. The first component is
the index of the character looked at. -/
def getScheme : Nat → List Char → List Char → Except GoError (List Char × List Char)
  | _, whole, [] => .ok ([], whole)
  | i, whole, c :: cs =>
    if c.isAlpha then getScheme (i + 1) whole cs
    else if c.isDigit ∨ c = '+' ∨ c = '-' ∨ c = '.' then
      if i = 0 then .ok ([], whole) else getScheme (i + 1) whole cs
    else if c = ':' then
      if i = 0 then .error ⟨"missing protocol scheme"⟩
      else .ok (whole.take i, cs)
    else .ok ([], whole)

/-- The function `url.Parse` on the URLs this program parses: no fragment, no
user information, no percent escape before the query, and a path that is empty
or starts with a slash. -/
def urlParse (rawURL : String) : Except GoError URL :=
  if stringContainsCTLByte rawURL.data then
    .error ⟨"parse " ++ rawURL.quote ++ ": net/url: invalid control character in URL"⟩
  else
    match getScheme 0 rawURL.data rawURL.data with
    | .error err => .error ⟨"parse " ++ rawURL.quote ++ ": " ++ err.msg⟩
    | .ok (scheme, rest) =>
      let scheme := scheme.map Char.toLower
      let r := cutAt '?' rest
      let rest := r.1
      let rawQuery := r.2.1
      match rest with
      | '/' :: '/' :: authority =>
        let a := cutAt '/' authority
        let path := if a.2.2 then '/' :: a.2.1 else []
        .ok ⟨⟨scheme⟩, ⟨a.1⟩, ⟨path⟩, ⟨rawQuery⟩⟩
      | _ => .ok ⟨⟨scheme⟩, "", ⟨rest⟩, ⟨rawQuery⟩⟩

/-! ## net/http -/

/-- The type `http.Header`: a map from a canonical key to its values. -/
abbrev Header := List (String × List String)

/-- The function `validHeaderFieldByte`: the token characters of RFC 7230. -/
def validHeaderFieldByte (c : Char) : Bool :=
  c.isAlphanum || "!#$%&*+-.^_|~".data.contains c || c.toNat = 39 || c.toNat = 96

/-- The letters of a canonical header key: upper case at the start and after a
hyphen, lower case elsewhere. -/
def canonicalLetters : Bool → List Char → List Char
  | _, [] => []
  | upper, c :: cs =>
    (if upper then c.toUpper else c.toLower) :: canonicalLetters (c = '-') cs

/-- The function `textproto.CanonicalMIMEHeaderKey`: a key with a character
that is not a token character is returned unchanged. -/
def CanonicalMIMEHeaderKey (s : String) : String :=
  if s.data.all validHeaderFieldByte then ⟨canonicalLetters true s.data⟩ else s

/-- The method `Header.Set`: the canonical key gets the single value. -/
def Header.Set (h : Header) (key value : String) : Header :=
  h.filter (fun kv => kv.1 ≠ CanonicalMIMEHeaderKey key) ++ [(CanonicalMIMEHeaderKey key, [value])]

/-- The method `Header.Get`: the first value of the canonical key, or the
empty string. -/
def Header.Get (h : Header) (key : String) : String :=
  match h.find? (fun kv => kv.1 = CanonicalMIMEHeaderKey key) with
  | some kv => kv.2.headD ""
  | none => ""

/-- An outgoing `http.Request`: method, URL, header and host. -/
structure HttpRequest where
  Method : String
  URL : URL
  Header : Header
  Host : String
  deriving DecidableEq, Repr

/-- The function `validMethod` of `net/http`: a non-empty token. -/
def validMethod (method : String) : Bool :=
  method.data ≠ [] && method.data.all validHeaderFieldByte

/-- The function `removeEmptyPort` of `net/http`: a host that ends in a colon
loses it. -/
def removeEmptyPort (host : String) : String :=
  if host.data.getLast? = some ':' then ⟨host.data.dropLast⟩ else host

/-- The function `http.NewRequest(method, url, nil)`: the method has to be a
token and the URL has to parse; the header starts empty. -/
def NewRequest (method url : String) : Except GoError HttpRequest :=
  let method := if method = "" then "GET" else method
  if ¬ validMethod method then .error ⟨"net/http: invalid method " ++ method.quote⟩
  else
    match urlParse url with
    | .error err => .error err
    | .ok u =>
      let u := { u with Host := removeEmptyPort u.Host }
      .ok ⟨method, u, [], u.Host⟩

/-- What `client.Do` hands back on success: the status code, and what
`ioutil.ReadAll(resp.Body)` will return (the bytes and the read error). -/
structure Response where
  StatusCode : Int
  Body : Bytes
  readErr : Option GoError
  deriving DecidableEq, Repr

/-! ## The environment -/

/-- What the program takes from outside: the clock and package `time`, the
HTTP round trip, the JSON decoder and the terminal event loop.

* `now` is the value of `time.Now()`; `AddDate`, `Format` and `timeString` are
  the methods `Time.AddDate`, `Time.Format` and `Time.String`.
* `clientDo` is `(&http.Client{}).Do`: an error, or a response.
* `unmarshal body v` is `json.Unmarshal(body, &v)`: the value `v` holds
  afterwards (which a failed decoding may have filled in part) and the error.
* `appRun` is what `app.Run()` returns once the event loop has ended. -/
structure Env (τ μ : Type) where
  now : τ
  AddDate : τ → Int → Int → Int → τ
  Format : τ → String → String
  timeString : τ → String
  clientDo : HttpRequest → Except GoError Response
  unmarshal : Bytes → ResponseData τ μ → ResponseData τ μ × Option GoError
  appRun : Application → Option GoError

/-- The layout constant `time.RFC3339`. -/
def RFC3339 : String := "2006-01-02T15:04:05Z07:00"

/-! ## `main.go` -/

/-- The constant `terraformAPIURL`. -/
def terraformAPIURL : String := "https://app.terraform.io/api/v2/organization/audit-trail"

/-- What a call of `fetchAuditEvents` does and returns: the requests it handed
to the HTTP client, how many response bodies it closed, and its two results. -/
structure FetchResult (τ μ : Type) where
  requests : List HttpRequest
  bodiesClosed : Nat
  data : Option (ResponseData τ μ)
  err : Option GoError

/-- The function `fetchAuditEvents` (`main.go`, lines 131 to 171). -/
def fetchAuditEvents {τ μ : Type} (env : Env τ μ) (token since : String) : FetchResult τ μ :=
  match urlParse terraformAPIURL with
  | .error err => ⟨[], 0, none, some err⟩
  | .ok requestURL =>
    let query := requestURL.Query
    let query := query.Set "since" since
    let requestURL := { requestURL with RawQuery := query.Encode }
    match NewRequest "GET" requestURL.String with
    | .error err => ⟨[], 0, none, some err⟩
    | .ok req =>
      let req := { req with Header := req.Header.Set "Authorization" ("Bearer " ++ token) }
      match env.clientDo req with
      | .error err => ⟨[req], 0, none, some err⟩
      | .ok resp =>
        if resp.StatusCode ≠ 200 then
          ⟨[req], 1, none, some (errUnexpectedStatus resp.StatusCode)⟩
        else
          match resp.readErr with
          | some err => ⟨[req], 1, none, some err⟩
          | none =>
            match env.unmarshal resp.Body ⟨[]⟩ with
            | (_, some err) => ⟨[req], 1, none, some err⟩
            | (responseData, none) => ⟨[req], 1, some responseData, none⟩

/-- How the process ends: `os.Exit(code)`, a return from `run` (the process
then ends with code 0), or a panic. -/
inductive Termination where
  | exit (code : Int)
  | returned
  | panic (err : GoError)
  deriving DecidableEq, Repr

/-- The exit code of the process. A panic ends a Go program with code 2. -/
def Termination.code : Termination → Int
  | .exit code => code
  | .returned => 0
  | .panic _ => 2

/-- The terminal widgets `run` creates. -/
structure Widgets where
  app : Application
  table : Table
  flex : Flex

/-- One call of `fetchAuditEvents`: its two arguments. -/
structure FetchCall where
  token : String
  since : String
  deriving DecidableEq, Repr

/-- What a call of `run` does: what it wrote to standard output, its calls of
`fetchAuditEvents`, the requests handed to the HTTP client, the widgets as they
are when `run` ends (`none` when it ends before they exist), and how it ends. -/
structure RunResult where
  stdout : String
  fetchCalls : List FetchCall
  requests : List HttpRequest
  widgets : Option Widgets
  status : Termination

/-- The function `fmt.Println` with one string argument. -/
def Println (s : String) : String := s ++ "\n"

/-- The body of the loop of `run` (lines 105 to 113): one row of seven cells at
the end of the table, then the line number goes up by one. -/
def rowStep {τ μ : Type} (timeString : τ → String) (st : Table × Int) (event : AuditEvent τ μ) :
    Table × Int :=
  let table := st.1
  let lineNumber := st.2
  let row := table.GetRowCount
  let table := table.SetCell row 0 ((NewTableCell (sprintfD lineNumber)).SetTextColor Color.Gray)
  let table := table.SetCell row 1
    ((NewTableCell (timeString event.Timestamp)).SetTextColor Color.DarkMagenta)
  let table := table.SetCell row 2 ((NewTableCell event.Type_).SetTextColor Color.DarkCyan)
  let table := table.SetCell row 3 ((NewTableCell event.ID).SetTextColor Color.Olive)
  let table := table.SetCell row 4
    ((NewTableCell event.Auth.Description).SetTextColor Color.Teal)
  let table := table.SetCell row 5 ((NewTableCell event.Resource.Type_).SetTextColor Color.DarkBlue)
  let table := table.SetCell row 6
    ((NewTableCell event.Resource.Action).SetTextColor Color.DarkGreen)
  (table, wrapInt64 (lineNumber + 1))

/-- The loop of `run` (lines 103 to 114), started with `lineNumber := 1`. -/
def buildRows {τ μ : Type} (timeString : τ → String) (table : Table)
    (events : List (AuditEvent τ μ)) : Table :=
  (events.foldl (rowStep timeString) (table, 1)).1

/-- The key handler `run` installs (lines 119 to 124): `app.Stop()` when the
key is Escape; the event is returned in every case. -/
def inputCapture (event : EventKey) : List AppCall × EventKey :=
  let calls := if event.Key = KeyEscape then [AppCall.Stop] else []
  (calls, event)

/-- The text of the help banner (line 89). -/
def bannerText : String := "Use arrow keys to scroll | Press ESC to exit"

/-- The value of `sinceTimestamp` (line 80):
`time.Now().AddDate(0, 0, -since).Format(time.RFC3339)`. -/
def sinceTimestamp {τ μ : Type} (env : Env τ μ) (since : Int) : String :=
  env.Format (env.AddDate env.now 0 0 (wrapInt64 (-since))) RFC3339

/-- The function `run` (`main.go`, lines 74 to 129), with the two flag
variables `orgToken` and `since` as arguments. -/
def run {τ μ : Type} (env : Env τ μ) (orgToken : String) (since : Int) : RunResult :=
  if orgToken = "" then
    ⟨Println "Error: organization token must be provided", [], [], none, .exit 1⟩
  else
    let sinceTimestamp := sinceTimestamp env since
    let app := NewApplication
    let table := (NewTable.SetBorders false).SetSelectable false false
    let flex := NewFlex.SetDirection FlexDirection.FlexRow
    let flex := flex.AddItem
      (Primitive.textView ((NewTextView.SetText bannerText).SetDynamicColors true)) 1 1 false
    let out := Println "Fetching audit events..."
    let fetched := fetchAuditEvents env orgToken sinceTimestamp
    let calls := [FetchCall.mk orgToken sinceTimestamp]
    match fetched.err, fetched.data with
    | some err, _ =>
      ⟨out ++ "Error fetching audit events: " ++ err.msg ++ "\n", calls, fetched.requests,
        some ⟨app, table, flex⟩, .exit 1⟩
    | none, none =>
      ⟨out, calls, fetched.requests, some ⟨app, table, flex⟩,
        .panic ⟨"runtime error: invalid memory address or nil pointer dereference"⟩⟩
    | none, some responseData =>
      if responseData.Data.length = 0 then
        ⟨out ++ Println "No audit events found", calls, fetched.requests,
          some ⟨app, table, flex⟩, .exit 0⟩
      else
        let table := buildRows env.timeString table responseData.Data
        let flex := flex.AddItem (Primitive.table table) 0 1 true
        let app := (app.SetRoot flex true).SetFocus (Primitive.table table)
        let app := app.SetInputCapture inputCapture
        let app := app.markRun
        match env.appRun app with
        | some err => ⟨out, calls, fetched.requests, some ⟨app, table, flex⟩, .panic err⟩
        | none => ⟨out, calls, fetched.requests, some ⟨app, table, flex⟩, .returned⟩

/-! ## Reading a result -/

/-- The rows of the table when `run` ends (no rows when there is no table). -/
def RunResult.tableCells (r : RunResult) : List (List TableCell) :=
  match r.widgets with
  | some w => w.table.cells
  | none => []

/-- The items of the layout when `run` ends. -/
def RunResult.flexItems (r : RunResult) : List FlexItem :=
  match r.widgets with
  | some w => w.flex.items
  | none => []

/-- The text of a layout item that is a text view. -/
def FlexItem.text? (it : FlexItem) : Option String :=
  match it.Item with
  | .textView v => some v.text
  | .table _ => none

/-- The URL of a request, as a string. -/
def HttpRequest.urlString (r : HttpRequest) : String := r.URL.String

/-- The texts of the cells of a row. -/
def rowTexts (row : List TableCell) : List String := row.map TableCell.Text

/-- The request `fetchAuditEvents` builds, in closed form (see
`fetchAuditEvents_requests` for the proof that it is this one). -/
def auditRequest (token since : String) : HttpRequest :=
  { Method := "GET"
    URL := ⟨"https", "app.terraform.io", "/api/v2/organization/audit-trail",
      "since=" ++ QueryEscape since⟩
    Header := [("Authorization", ["Bearer " ++ token])]
    Host := "app.terraform.io" }

/-! ## A test environment -/

/-- Two audit events of a test fixture. -/
def fixtureEvents : List (AuditEvent Nat Unit) :=
  [⟨"ae-1", "0", "Resource", 5, ⟨"user-1", "alice", "Client", "", "org-1", "acme"⟩,
      ⟨"req-1"⟩, ⟨"ws-1", "workspace", "create", ()⟩⟩,
   ⟨"ae-2", "0", "Resource", 6, ⟨"user-2", "bob", "Client", "", "org-1", "acme"⟩,
      ⟨"req-2"⟩, ⟨"run-1", "run", "apply", ()⟩⟩]

/-- A test environment: times are day numbers, the clock stands at day 100,
the server answers every request with `resp`, the decoder leaves `decoded` in
the target and returns `decodeErr`, and the event loop ends without an error. -/
def fixtureEnv (resp : Except GoError Response) (decoded : List (AuditEvent Nat Unit))
    (decodeErr : Option GoError) : Env Nat Unit :=
  { now := 100
    AddDate := fun t _ _ days => (t + days).toNat
    Format := fun t _ => "day-" ++ Nat.repr t ++ "T10:00:00Z"
    timeString := fun t => "day-" ++ Nat.repr t
    clientDo := fun _ => resp
    unmarshal := fun _ _ => (⟨decoded⟩, decodeErr)
    appRun := fun _ => none }

/-! ## Closed forms used by the lemmas -/

/-- The row the loop body makes for an event and a line number. -/
def rowOf {τ μ : Type} (timeString : τ → String) (lineNumber : Int) (event : AuditEvent τ μ) :
    List TableCell :=
  [⟨sprintfD lineNumber, Color.Gray⟩, ⟨timeString event.Timestamp, Color.DarkMagenta⟩,
   ⟨event.Type_, Color.DarkCyan⟩, ⟨event.ID, Color.Olive⟩,
   ⟨event.Auth.Description, Color.Teal⟩, ⟨event.Resource.Type_, Color.DarkBlue⟩,
   ⟨event.Resource.Action, Color.DarkGreen⟩]

/-- The rows the loop makes for a list of events, the first with number `n`. -/
def rowsFrom {τ μ : Type} (timeString : τ → String) : Nat → List (AuditEvent τ μ) →
    List (List TableCell)
  | _, [] => []
  | n, e :: es => rowOf timeString n e :: rowsFrom timeString (n + 1) es

/-- The numbers of the characters `QueryEscape` writes: `+`, `%`, digits,
letters and `-`, `_`, `.`, `~`. -/
def escapedCode (n : Nat) : Prop :=
  n = 43 ∨ n = 37 ∨ (48 ≤ n ∧ n ≤ 57) ∨ (65 ≤ n ∧ n ≤ 90) ∨ (97 ≤ n ∧ n ≤ 122) ∨
    n = 45 ∨ n = 95 ∨ n = 46 ∨ n = 126

/-! ## Lemmas: the table -/

theorem rowStep_eq {τ μ : Type} (timeString : τ → String) (t : Table) (n : Int)
    (event : AuditEvent τ μ) :
    rowStep timeString (t, n) event =
      ({ t with cells := t.cells ++ [rowOf timeString n event] }, wrapInt64 (n + 1)) := by
  simp [rowStep, Table.GetRowCount, Table.SetCell, NewTableCell, TableCell.SetTextColor, rowOf,
    emptyCell]

theorem wrapInt64_id (x : Int) (h0 : -(2 ^ 63) ≤ x) (h1 : x < 2 ^ 63) : wrapInt64 x = x := by
  unfold wrapInt64
  have : (x + 2 ^ 63) % 2 ^ 64 = x + 2 ^ 63 := by
    apply Int.emod_eq_of_lt <;> norm_num at * <;> omega
  omega

theorem foldl_rowStep {τ μ : Type} (timeString : τ → String) (events : List (AuditEvent τ μ)) :
    ∀ (t : Table) (n : Nat), n + events.length ≤ 2 ^ 63 →
      (events.foldl (rowStep timeString) (t, (n : Int))).1 =
        { t with cells := t.cells ++ rowsFrom timeString n events } := by
  induction events with
  | nil => intro t n _; simp [rowsFrom]
  | cons e es ih =>
    intro t n h
    rw [List.foldl_cons, rowStep_eq]
    cases es with
    | nil => simp [rowsFrom]
    | cons e2 es2 =>
      simp only [List.length_cons] at h
      norm_num at h
      rw [wrapInt64_id _ (by norm_num; omega) (by norm_num; omega)]
      have := ih { t with cells := t.cells ++ [rowOf timeString n e] } (n + 1)
        (by simp only [List.length_cons]; norm_num; omega)
      rw [show ((n : Int) + 1) = ((n + 1 : Nat) : Int) by push_cast; rfl, this]
      simp [rowsFrom]

theorem rowsFrom_length {τ μ : Type} (timeString : τ → String) (events : List (AuditEvent τ μ)) :
    ∀ n, (rowsFrom timeString n events).length = events.length := by
  induction events with
  | nil => intro n; rfl
  | cons e es ih => intro n; simp [rowsFrom, ih]

theorem rowsFrom_getElem? {τ μ : Type} (timeString : τ → String)
    (events : List (AuditEvent τ μ)) :
    ∀ (n i : Nat), (rowsFrom timeString n events)[i]? =
      (events[i]?).map (fun e => rowOf timeString ((n + i : Nat) : Int) e) := by
  induction events with
  | nil => intro n i; simp [rowsFrom]
  | cons e es ih =>
    intro n i
    cases i with
    | zero => simp [rowsFrom]
    | succ j =>
      simp only [rowsFrom, List.getElem?_cons_succ, ih]
      congr 2
      funext e
      congr 2
      omega

theorem buildRows_eq {τ μ : Type} (timeString : τ → String) (t : Table)
    (events : List (AuditEvent τ μ)) (h : events.length < 2 ^ 63) :
    buildRows timeString t events = { t with cells := t.cells ++ rowsFrom timeString 1 events } := by
  unfold buildRows
  have h2 : 1 + events.length ≤ 2 ^ 63 := by
    have h3 : (2 : Nat) ^ 63 = 9223372036854775808 := by norm_num
    rw [h3] at h ⊢
    omega
  exact foldl_rowStep timeString events t 1 h2

theorem ofNat_toNat_small (c : Nat) (h : c < 128) : (Char.ofNat c).toNat = c := by
  interval_cases c <;> rfl

/-! ## Lemmas: escaping and unescaping a query value -/

theorem upperhex_code (n : Nat) : escapedCode (upperhex n).toNat := by
  unfold upperhex
  by_cases h : n < 16
  · interval_cases n <;> (unfold escapedCode; decide)
  · rw [List.getD_eq_default]
    · unfold escapedCode; decide
    · simp; omega

theorem upperhex_unhex (n : Nat) (h : n < 16) :
    ishex (upperhex n).toNat = true ∧ unhex (upperhex n).toNat = n := by
  interval_cases n <;> decide

theorem shouldEscape_false (b : Nat) (h : shouldEscape b = false) : escapedCode b ∧ b ≠ 43 ∧ b ≠ 37 := by
  unfold shouldEscape at h
  unfold escapedCode
  split_ifs at h with h3 h4
  · omega
  · omega

theorem escapeByte_code (b : Nat) : ∀ c ∈ escapeByte b, escapedCode c.toNat := by
  intro c hc
  unfold escapeByte at hc
  split_ifs at hc with h1 h2
  · simp at hc; subst hc; unfold escapedCode; decide
  · simp at hc
    rcases hc with rfl | rfl | rfl
    · unfold escapedCode; decide
    · exact upperhex_code _
    · exact upperhex_code _
  · simp at hc
    subst hc
    have hb := shouldEscape_false b (by simpa using h2)
    have hlt : b < 128 := by unfold escapedCode at hb; omega
    rw [ofNat_toNat_small b hlt]
    exact hb.1

theorem queryEscape_code (s : String) : ∀ c ∈ (QueryEscape s).data, escapedCode c.toNat := by
  intro c hc
  simp only [QueryEscape, List.mem_flatMap] at hc
  obtain ⟨b, _, hb⟩ := hc
  exact escapeByte_code b c hb

theorem utf8Bytes_ascii (c : Char) (h : c.toNat < 128) : utf8Bytes c = [c.toNat] := by
  simp [utf8Bytes, h]

theorem char_toNat_lt (c : Char) : c.toNat < 1114112 := by
  have := c.valid
  unfold Char.toNat
  rcases this with h | h
  · have := h; omega
  · omega

theorem utf8Bytes_lt (c : Char) : ∀ b ∈ utf8Bytes c, b < 256 := by
  have hv := char_toNat_lt c
  intro b hb
  unfold utf8Bytes at hb
  simp only at hb
  split_ifs at hb <;> simp at hb <;> omega

theorem stringBytes_lt (s : String) : ∀ b ∈ stringBytes s, b < 256 := by
  intro b hb
  simp only [stringBytes, List.mem_flatMap] at hb
  obtain ⟨c, _, hc⟩ := hb
  exact utf8Bytes_lt c b hc

theorem unescapeBytes_cons (c : Nat) (rest : Bytes) (h : c ≠ 37) :
    unescapeBytes (c :: rest) =
      if c = 43 then (unescapeBytes rest).map (fun t => 32 :: t)
      else (unescapeBytes rest).map (fun t => c :: t) := by
  rcases rest with _ | ⟨a, _ | ⟨b, r⟩⟩ <;> simp [unescapeBytes, h]

theorem unescapeBytes_percent (a b : Nat) (rest : Bytes) (ha : ishex a = true)
    (hb : ishex b = true) :
    unescapeBytes (37 :: a :: b :: rest) =
      (unescapeBytes rest).map (fun t => (unhex a * 16 + unhex b) :: t) := by
  simp [unescapeBytes, ha, hb]

theorem unescape_escapeByte (b : Nat) (hb : b < 256) (rest : Bytes) :
    unescapeBytes ((escapeByte b).map Char.toNat ++ rest) =
      (unescapeBytes rest).map (fun t => b :: t) := by
  unfold escapeByte
  split_ifs with h1 h2
  · subst h1
    have h43 : ('+' : Char).toNat = 43 := by decide
    simp only [List.map_cons, List.map_nil, List.cons_append, List.nil_append, h43]
    rw [unescapeBytes_cons _ _ (by decide)]
    simp
  · have ha := upperhex_unhex (b / 16) (by omega)
    have hc := upperhex_unhex (b % 16) (by omega)
    have h37 : ('%' : Char).toNat = 37 := by decide
    simp only [List.map_cons, List.map_nil, List.cons_append, List.nil_append, h37]
    rw [unescapeBytes_percent _ _ _ ha.1 hc.1, ha.2, hc.2]
    have : b / 16 * 16 + b % 16 = b := by omega
    rw [this]
  · have hb2 := shouldEscape_false b (by simpa using h2)
    have hlt : b < 128 := by have := hb2.1; unfold escapedCode at this; omega
    simp only [List.map_cons, List.map_nil, List.cons_append, List.nil_append,
      ofNat_toNat_small b hlt]
    rw [unescapeBytes_cons _ _ hb2.2.2]
    simp [hb2.2.1]

theorem unescape_escape (bs : Bytes) (h : ∀ b ∈ bs, b < 256) :
    unescapeBytes ((bs.flatMap escapeByte).map Char.toNat) = some bs := by
  induction bs with
  | nil => simp [unescapeBytes]
  | cons b bs ih =>
    rw [List.flatMap_cons, List.map_append, unescape_escapeByte b (h b (by simp)),
      ih (fun x hx => h x (by simp [hx]))]
    rfl

theorem flatMap_utf8Bytes_ascii (cs : List Char) (h : ∀ c ∈ cs, c.toNat < 128) :
    cs.flatMap utf8Bytes = cs.map Char.toNat := by
  induction cs with
  | nil => rfl
  | cons c cs ih =>
    rw [List.flatMap_cons, utf8Bytes_ascii c (h c (by simp)), ih (fun x hx => h x (by simp [hx]))]
    rfl

theorem stringBytes_queryEscape (s : String) :
    stringBytes (QueryEscape s) = ((stringBytes s).flatMap escapeByte).map Char.toNat := by
  have h := queryEscape_code s
  unfold stringBytes
  rw [flatMap_utf8Bytes_ascii]
  · rfl
  · intro c hc
    have := h c hc
    unfold escapedCode at this
    omega

theorem unescapeBytes_queryEscape (s : String) :
    unescapeBytes (stringBytes (QueryEscape s)) = some (stringBytes s) := by
  rw [stringBytes_queryEscape]
  exact unescape_escape _ (stringBytes_lt s)

theorem utf8DecodeChar_encode (c : Char) (rest : Bytes) :
    utf8DecodeChar (utf8Bytes c ++ rest) = some (c, rest) := by
  have hv := char_toNat_lt c
  by_cases h1 : c.toNat < 0x80
  · have he : utf8Bytes c = [c.toNat] := by simp [utf8Bytes, h1]
    rw [he]
    simp only [List.cons_append, List.nil_append]
    unfold utf8DecodeChar
    dsimp only
    rw [if_pos h1, Char.ofNat_toNat]
  · by_cases h2 : c.toNat < 0x800
    · have he : utf8Bytes c = [0xC0 + c.toNat / 64, 0x80 + c.toNat % 64] := by
        simp [utf8Bytes, h1, h2]
      have hd : (0xC0 + c.toNat / 64 - 0xC0) * 64 + (0x80 + c.toNat % 64 - 0x80) = c.toNat := by
        omega
      rw [he]
      simp only [List.cons_append, List.nil_append]
      unfold utf8DecodeChar
      dsimp only
      rw [if_neg (by omega), if_pos (by omega), hd, Char.ofNat_toNat, if_pos he]
    · by_cases h3 : c.toNat < 0x10000
      · have he : utf8Bytes c =
            [0xE0 + c.toNat / 4096, 0x80 + c.toNat / 64 % 64, 0x80 + c.toNat % 64] := by
          simp [utf8Bytes, h1, h2, h3]
        have hd : (0xE0 + c.toNat / 4096 - 0xE0) * 4096 + (0x80 + c.toNat / 64 % 64 - 0x80) * 64 +
            (0x80 + c.toNat % 64 - 0x80) = c.toNat := by omega
        rw [he]
        simp only [List.cons_append, List.nil_append]
        unfold utf8DecodeChar
        dsimp only
        rw [if_neg (by omega), if_neg (by omega), if_pos (by omega), hd, Char.ofNat_toNat,
          if_pos he]
      · have he : utf8Bytes c =
            [0xF0 + c.toNat / 262144, 0x80 + c.toNat / 4096 % 64, 0x80 + c.toNat / 64 % 64,
              0x80 + c.toNat % 64] := by
          simp [utf8Bytes, h1, h2, h3]
        have hd : (0xF0 + c.toNat / 262144 - 0xF0) * 262144 +
            (0x80 + c.toNat / 4096 % 64 - 0x80) * 4096 + (0x80 + c.toNat / 64 % 64 - 0x80) * 64 +
            (0x80 + c.toNat % 64 - 0x80) = c.toNat := by omega
        rw [he]
        simp only [List.cons_append, List.nil_append]
        unfold utf8DecodeChar
        dsimp only
        rw [if_neg (by omega), if_neg (by omega), if_neg (by omega), hd, Char.ofNat_toNat,
          if_pos he]

theorem utf8Bytes_ne_nil (c : Char) : ∃ b bs, utf8Bytes c = b :: bs := by
  unfold utf8Bytes
  simp only
  split_ifs <;> exact ⟨_, _, rfl⟩

theorem utf8DecodeFuel_encode (cs : List Char) :
    ∀ fuel, cs.length ≤ fuel → utf8DecodeFuel fuel (cs.flatMap utf8Bytes) = some cs := by
  induction cs with
  | nil => intro fuel _; cases fuel <;> rfl
  | cons c cs ih =>
    intro fuel hf
    cases fuel with
    | zero => simp at hf
    | succ fuel =>
      obtain ⟨b, bs, hb⟩ := utf8Bytes_ne_nil c
      have hdec := utf8DecodeChar_encode c (cs.flatMap utf8Bytes)
      rw [List.flatMap_cons]
      rw [hb] at hdec ⊢
      simp only [List.cons_append] at hdec ⊢
      rw [utf8DecodeFuel, hdec]
      simp [ih fuel (by simpa using hf)]

theorem length_le_flatMap_utf8Bytes (cs : List Char) : cs.length ≤ (cs.flatMap utf8Bytes).length := by
  induction cs with
  | nil => simp
  | cons c cs ih =>
    obtain ⟨b, bs, hb⟩ := utf8Bytes_ne_nil c
    rw [List.flatMap_cons, hb]
    simp only [List.length_cons, List.length_append]
    omega

theorem bytesString_stringBytes (s : String) : bytesString (stringBytes s) = some s := by
  unfold bytesString stringBytes
  rw [utf8DecodeFuel_encode _ _ (length_le_flatMap_utf8Bytes s.data)]
  rfl

theorem queryUnescape_queryEscape (s : String) : QueryUnescape (QueryEscape s) = some s := by
  unfold QueryUnescape
  rw [unescapeBytes_queryEscape]
  exact bytesString_stringBytes s

theorem cutAt_not_mem (sep : Char) (l : List Char) (h : sep ∉ l) : cutAt sep l = (l, [], false) := by
  induction l with
  | nil => rfl
  | cons c cs ih =>
    have hc : c ≠ sep := fun e => h (by simp [e])
    have hcs : sep ∉ cs := fun e => h (by simp [e])
    simp [cutAt, hc, ih hcs]

theorem parseQueryFuel_nil (fuel : Nat) (m : Values) : parseQueryFuel fuel m [] = m := by
  cases fuel <;> rfl

theorem queryEscape_no_sep (s : String) :
    '&' ∉ (QueryEscape s).data ∧ ';' ∉ (QueryEscape s).data := by
  have h := queryEscape_code s
  constructor
  · intro hm
    have := h _ hm
    revert this
    unfold escapedCode
    decide
  · intro hm
    have := h _ hm
    revert this
    unfold escapedCode
    decide

theorem parseQuery_since (since : String) :
    ParseQuery ("since=" ++ QueryEscape since) = [("since", [since])] := by
  obtain ⟨hamp, hsemi⟩ := queryEscape_no_sep since
  have hdata : ("since=" ++ QueryEscape since).data =
      's' :: 'i' :: 'n' :: 'c' :: 'e' :: '=' :: (QueryEscape since).data := by
    simp
  have hcut : cutAt '&' ('s' :: 'i' :: 'n' :: 'c' :: 'e' :: '=' :: (QueryEscape since).data) =
      ('s' :: 'i' :: 'n' :: 'c' :: 'e' :: '=' :: (QueryEscape since).data, [], false) := by
    apply cutAt_not_mem
    simp [hamp]
  have hkey : QueryUnescape ⟨['s', 'i', 'n', 'c', 'e']⟩ = some "since" := by decide
  have hval : QueryUnescape ⟨(QueryEscape since).data⟩ = some since :=
    queryUnescape_queryEscape since
  unfold ParseQuery
  rw [hdata]
  simp only [List.length_cons]
  rw [parseQueryFuel]
  · simp only [hcut]
    simp [cutAt, hsemi, hkey, hval, parseQueryFuel_nil, Values.Add]
  · simp

/-! ## Lemmas: the request -/

theorem urlParse_base : urlParse terraformAPIURL =
    .ok ⟨"https", "app.terraform.io", "/api/v2/organization/audit-trail", ""⟩ := by rfl

theorem query_base :
    (URL.mk "https" "app.terraform.io" "/api/v2/organization/audit-trail" "").Query = [] := by
  rfl

theorem encode_since (since : String) :
    Values.Encode (Values.Set [] "since" since) = "since=" ++ QueryEscape since := by
  have h : (QueryEscape "since").data = "since".data := by decide
  apply String.ext
  simp [Values.Encode, Values.Set, sortByKey, insertByKey, encodeEntries, h]

theorem queryEscape_not_ctl (s : String) :
    ∀ c ∈ (QueryEscape s).data, ¬ (c.toNat < 0x20 ∨ c.toNat = 0x7f) := by
  intro c hc
  have := queryEscape_code s c hc
  unfold escapedCode at this
  omega

theorem terraformAPIURL_data : terraformAPIURL.data =
    ['h', 't', 't', 'p', 's', ':', '/', '/', 'a', 'p', 'p', '.', 't', 'e', 'r', 'r', 'a', 'f', 'o', 'r', 'm', '.', 'i', 'o', '/', 'a', 'p', 'i', '/', 'v', '2', '/', 'o', 'r', 'g', 'a', 'n', 'i', 'z', 'a', 't', 'i', 'o', 'n', '/', 'a', 'u', 'd', 'i', 't', '-', 't', 'r', 'a', 'i', 'l'] := by
  decide

theorem urlParse_built (q : List Char) (hq : ∀ c ∈ q, ¬ (c.toNat < 0x20 ∨ c.toNat = 0x7f)) :
    urlParse ⟨terraformAPIURL.data ++ '?' :: q⟩ =
      .ok ⟨"https", "app.terraform.io", "/api/v2/organization/audit-trail", ⟨q⟩⟩ := by
  have hctl : stringContainsCTLByte (terraformAPIURL.data ++ '?' :: q) = false := by
    unfold stringContainsCTLByte
    rw [List.any_append, List.any_cons]
    have h1 : (terraformAPIURL.data.any fun c => decide (c.toNat < 0x20 ∨ c.toNat = 0x7f)) = false := by
      decide
    have h2 : (q.any fun c => decide (c.toNat < 0x20 ∨ c.toNat = 0x7f)) = false := by
      rw [List.any_eq_false]
      intro c hc
      simpa using hq c hc
    rw [h1, h2]
    decide
  unfold urlParse
  simp only [hctl]
  rw [terraformAPIURL_data]
  simp [getScheme, cutAt]

theorem urlString_built (since : String) :
    (URL.mk "https" "app.terraform.io" "/api/v2/organization/audit-trail"
      ("since=" ++ QueryEscape since)).String =
      ⟨terraformAPIURL.data ++ '?' :: ("since=" ++ QueryEscape since).data⟩ := by
  apply String.ext
  have h1 : ("since=" ++ QueryEscape since) ≠ "" := by
    intro h
    have := congrArg String.data h
    simp at this
  simp [URL.String, h1, terraformAPIURL_data]

theorem newRequest_built (since : String) :
    NewRequest "GET" (URL.mk "https" "app.terraform.io" "/api/v2/organization/audit-trail"
      ("since=" ++ QueryEscape since)).String =
      .ok ⟨"GET", ⟨"https", "app.terraform.io", "/api/v2/organization/audit-trail",
        "since=" ++ QueryEscape since⟩, [], "app.terraform.io"⟩ := by
  rw [urlString_built, NewRequest]
  have hm : validMethod "GET" = true := by decide
  have hp : removeEmptyPort "app.terraform.io" = "app.terraform.io" := by decide
  rw [urlParse_built]
  · simp [hm, hp, -String.data_append]
  · intro c hc
    simp only [String.data_append, List.mem_append] at hc
    rcases hc with hc | hc
    · revert c; decide
    · exact queryEscape_not_ctl since c hc

theorem fetchAuditEvents_eq {τ μ : Type} (env : Env τ μ) (token since : String) :
    fetchAuditEvents env token since =
      match env.clientDo (auditRequest token since) with
      | .error err => ⟨[auditRequest token since], 0, none, some err⟩
      | .ok resp =>
        if resp.StatusCode ≠ 200 then
          ⟨[auditRequest token since], 1, none, some (errUnexpectedStatus resp.StatusCode)⟩
        else
          match resp.readErr with
          | some err => ⟨[auditRequest token since], 1, none, some err⟩
          | none =>
            match env.unmarshal resp.Body ⟨[]⟩ with
            | (_, some err) => ⟨[auditRequest token since], 1, none, some err⟩
            | (responseData, none) => ⟨[auditRequest token since], 1, some responseData, none⟩ := by
  have hk : CanonicalMIMEHeaderKey "Authorization" = "Authorization" := by decide
  unfold fetchAuditEvents
  rw [urlParse_base]
  simp only [query_base, encode_since, newRequest_built, Header.Set, hk, List.filter_nil,
    List.nil_append]
  rfl
/-! ## Lemmas: `run` -/

theorem sprintfD_natCast (n : Nat) : sprintfD (n : Int) = Nat.repr n := by
  unfold sprintfD
  rw [if_neg (by omega)]
  simp

theorem sprintfD_natCast_succ (n : Nat) : sprintfD ((n : Int) + 1) = Nat.repr (n + 1) := by
  rw [← sprintfD_natCast]
  rfl

theorem run_viewer {τ μ : Type} (env : Env τ μ) (orgToken : String) (since : Int)
    (events : List (AuditEvent τ μ)) (htoken : orgToken ≠ "")
    (hdata : (fetchAuditEvents env orgToken (sinceTimestamp env since)).data = some ⟨events⟩)
    (herr : (fetchAuditEvents env orgToken (sinceTimestamp env since)).err = none)
    (hne : 1 ≤ events.length) :
    ∃ w, (run env orgToken since).widgets = some w ∧
      w.table = buildRows env.timeString ((NewTable.SetBorders false).SetSelectable false false)
        events ∧
      w.flex = ((NewFlex.SetDirection FlexDirection.FlexRow).AddItem
        (Primitive.textView ((NewTextView.SetText bannerText).SetDynamicColors true)) 1 1
          false).AddItem (Primitive.table w.table) 0 1 true ∧
      w.app.root = some w.flex ∧ w.app.rootFullscreen = true ∧
      w.app.focus = some (FocusTarget.primitive (Primitive.table w.table)) ∧
      w.app.inputCapture = some inputCapture ∧ w.app.ran = true ∧
      (run env orgToken since).stdout = "Fetching audit events...\n" := by
  have hlen : ¬ events.length = 0 := by omega
  unfold run
  rw [if_neg htoken]
  simp only [hdata, herr, hlen, if_false]
  cases happ : env.appRun _ <;> exact ⟨_, rfl, rfl, rfl, rfl, rfl, rfl, rfl, rfl, rfl⟩
theorem run_tableCells {τ μ : Type} (env : Env τ μ) (orgToken : String) (since : Int)
    (events : List (AuditEvent τ μ)) (htoken : orgToken ≠ "")
    (hdata : (fetchAuditEvents env orgToken (sinceTimestamp env since)).data = some ⟨events⟩)
    (herr : (fetchAuditEvents env orgToken (sinceTimestamp env since)).err = none)
    (hne : 1 ≤ events.length) (hlen : events.length < 2 ^ 63) :
    (run env orgToken since).tableCells = rowsFrom env.timeString 1 events := by
  obtain ⟨w, hw, ht, _⟩ := run_viewer env orgToken since events htoken hdata herr hne
  unfold RunResult.tableCells
  rw [hw]
  simp only [ht, buildRows_eq _ _ _ hlen]
  rfl

/-! ## The claims -/

/-- C1. When the fetch succeeds with a non-empty list of `N` events (a Go slice,
so `N < 2^63`), the table `run` ends with has exactly `N` rows; row `i` is the row
the loop body makes from the `i`-th event and the line number `i + 1`, and its
first cell holds the decimal text of `i + 1`. -/
theorem run_adds_one_row_per_event {τ μ : Type} (env : Env τ μ) (orgToken : String)
    (since : Int) (events : List (AuditEvent τ μ)) (htoken : orgToken ≠ "")
    (hdata : (fetchAuditEvents env orgToken (sinceTimestamp env since)).data = some ⟨events⟩)
    (herr : (fetchAuditEvents env orgToken (sinceTimestamp env since)).err = none)
    (hne : 1 ≤ events.length) (hlen : events.length < 2 ^ 63) :
    (run env orgToken since).tableCells.length = events.length ∧
    ∀ (i : Nat) (hi : i < events.length),
      ∃ row, (run env orgToken since).tableCells[i]? = some row ∧
        (rowStep env.timeString (NewTable, ((i + 1 : Nat) : Int)) events[i]).1.cells = [row] ∧
        row.head?.map TableCell.Text = some (Nat.repr (i + 1)) := by
  rw [run_tableCells env orgToken since events htoken hdata herr hne hlen]
  refine ⟨rowsFrom_length _ _ _, ?_⟩
  intro i hi
  refine ⟨rowOf env.timeString ((1 + i : Nat) : Int) events[i], ?_, ?_, ?_⟩
  · rw [rowsFrom_getElem?, List.getElem?_eq_getElem hi]
    rfl
  · rw [rowStep_eq, show (1 + i) = i + 1 by omega]
    rfl
  · rw [show (1 + i) = i + 1 by omega]
    simp [rowOf, sprintfD_natCast_succ]

/-- Witness for C1: the fixture of two events gives a table of two rows. -/
theorem run_adds_one_row_per_event_witness :
    ("tok" ≠ "" ∧ 1 ≤ fixtureEvents.length ∧ fixtureEvents.length < 2 ^ 63) ∧
    (run (fixtureEnv (.ok ⟨200, [], none⟩) fixtureEvents none) "tok" 1).tableCells.length = 2 :=
  ⟨⟨by decide, by decide, by decide⟩,
   (run_adds_one_row_per_event (fixtureEnv (.ok ⟨200, [], none⟩) fixtureEvents none) "tok" 1
      fixtureEvents (by decide) (by simp [fetchAuditEvents_eq, fixtureEnv])
      (by simp [fetchAuditEvents_eq, fixtureEnv]) (by decide) (by decide)).1⟩

/-- C2. When the fetch succeeds with a non-empty list of events, the texts of
the cells of the row of the `i`-th event are, in column order: the row number
`i + 1`, `Timestamp.String()`, the event type, the event ID, the auth
description, the resource type and the resource action, each field unmodified. -/
theorem run_row_texts {τ μ : Type} (env : Env τ μ) (orgToken : String)
    (since : Int) (events : List (AuditEvent τ μ)) (htoken : orgToken ≠ "")
    (hdata : (fetchAuditEvents env orgToken (sinceTimestamp env since)).data = some ⟨events⟩)
    (herr : (fetchAuditEvents env orgToken (sinceTimestamp env since)).err = none)
    (hne : 1 ≤ events.length) (hlen : events.length < 2 ^ 63)
    (i : Nat) (hi : i < events.length) :
    ((run env orgToken since).tableCells[i]?).map rowTexts =
      some [Nat.repr (i + 1), env.timeString events[i].Timestamp, events[i].Type_,
        events[i].ID, events[i].Auth.Description, events[i].Resource.Type_,
        events[i].Resource.Action] := by
  rw [run_tableCells env orgToken since events htoken hdata herr hne hlen,
    rowsFrom_getElem?, List.getElem?_eq_getElem hi]
  simp [rowTexts, rowOf, sprintfD_natCast_succ, Nat.add_comm]

/-- Witness for C2: the second row of the fixture. -/
theorem run_row_texts_witness :
    ("tok" ≠ "" ∧ 1 ≤ fixtureEvents.length ∧ fixtureEvents.length < 2 ^ 63 ∧
      1 < fixtureEvents.length) ∧
    ((run (fixtureEnv (.ok ⟨200, [], none⟩) fixtureEvents none) "tok" 1).tableCells[1]?).map
      rowTexts = some ["2", "day-6", "Resource", "ae-2", "bob", "run", "apply"] :=
  ⟨⟨by decide, by decide, by decide, by decide⟩,
   (run_row_texts (fixtureEnv (.ok ⟨200, [], none⟩) fixtureEvents none) "tok" 1
      fixtureEvents (by decide) (by simp [fetchAuditEvents_eq, fixtureEnv])
      (by simp [fetchAuditEvents_eq, fixtureEnv])
      (by decide) (by decide) 1 (by decide)).trans (by decide)⟩
/-- C3. When the HTTP client answers the request with a response whose status
code is not 200, whatever the body, `fetchAuditEvents` returns a nil result and
the error `unexpected response status: <code>` with the decimal status code; and
`run`, called with a non-empty token, prints the line
`Error fetching audit events: unexpected response status: <code>`, which contains
the decimal status code, exits with code 1 and leaves the table without a row. -/
theorem non200_status_is_reported {τ μ : Type} (env : Env τ μ) (token ts : String)
    (resp : Response)
    (hdo : env.clientDo (auditRequest token ts) = .ok resp)
    (hstatus : resp.StatusCode ≠ 200) :
    (fetchAuditEvents env token ts).data = none ∧
    (fetchAuditEvents env token ts).err =
      some ⟨"unexpected response status: " ++ sprintfD resp.StatusCode⟩ ∧
    ∀ since : Int, token ≠ "" → sinceTimestamp env since = ts →
      (run env token since).stdout =
        "Fetching audit events...\nError fetching audit events: unexpected response status: " ++
          sprintfD resp.StatusCode ++ "\n" ∧
      (sprintfD resp.StatusCode).data <:+: (run env token since).stdout.data ∧
      (run env token since).status = Termination.exit 1 ∧
      (run env token since).status.code = 1 ∧
      (run env token since).tableCells = [] := by
  have hd : (fetchAuditEvents env token ts).data = none := by
    rw [fetchAuditEvents_eq, hdo]
    simp [hstatus]
  have he : (fetchAuditEvents env token ts).err =
      some ⟨"unexpected response status: " ++ sprintfD resp.StatusCode⟩ := by
    rw [fetchAuditEvents_eq, hdo]
    simp [hstatus, errUnexpectedStatus]
  refine ⟨hd, he, ?_⟩
  intro since htoken hts
  have hout : (run env token since).stdout =
      "Fetching audit events...\nError fetching audit events: unexpected response status: " ++
        sprintfD resp.StatusCode ++ "\n" := by
    unfold run
    rw [if_neg htoken]
    simp only [hts, he]
    apply String.ext
    simp [Println, String.data_append]
  refine ⟨hout, ?_, ?_, ?_, ?_⟩
  · rw [hout]
    simp only [String.data_append]
    exact ⟨_, _, rfl⟩
  · unfold run
    rw [if_neg htoken]
    simp only [hts, he]
  · unfold run
    rw [if_neg htoken]
    simp only [hts, he]
    rfl
  · unfold run
    rw [if_neg htoken]
    simp only [hts, he]
    rfl
/-- Witness for C3: a 404 answer whose body would decode to two events. -/
theorem non200_status_is_reported_witness :
    ((fixtureEnv (.ok ⟨404, [], none⟩) fixtureEvents none).clientDo
        (auditRequest "tok" "day-99T10:00:00Z") = .ok ⟨404, [], none⟩ ∧
      (404 : Int) ≠ 200 ∧ "tok" ≠ "" ∧
      sinceTimestamp (fixtureEnv (.ok ⟨404, [], none⟩) fixtureEvents none) 1 =
        "day-99T10:00:00Z") ∧
    (fetchAuditEvents (fixtureEnv (.ok ⟨404, [], none⟩) fixtureEvents none) "tok"
        "day-99T10:00:00Z").err = some ⟨"unexpected response status: 404"⟩ ∧
    (run (fixtureEnv (.ok ⟨404, [], none⟩) fixtureEvents none) "tok" 1).stdout =
      "Fetching audit events...\nError fetching audit events: unexpected response status: 404\n" ∧
    (run (fixtureEnv (.ok ⟨404, [], none⟩) fixtureEvents none) "tok" 1).status =
      Termination.exit 1 :=
  have h := non200_status_is_reported (fixtureEnv (.ok ⟨404, [], none⟩) fixtureEvents none)
    "tok" "day-99T10:00:00Z" ⟨404, [], none⟩ rfl (by decide)
  ⟨⟨rfl, by decide, by decide, by decide⟩, h.2.1.trans (by decide),
    (h.2.2 1 (by decide) (by decide)).1.trans (by decide), (h.2.2 1 (by decide) (by decide)).2.2.1⟩

/-- C4. When the response has status 200 and its body decodes without an error
to an envelope whose event list has length zero (an empty `data` array, or no
`data` field, which leaves the nil slice), `run`, called with a non-empty token,
prints `No audit events found`, exits with code 0, and the viewer is not started:
the table has no row, the layout holds only the banner, the application has no
root, no focus, no key handler, and `Run` is not called. -/
theorem empty_result_exits_zero {τ μ : Type} (env : Env τ μ) (orgToken : String) (since : Int)
    (resp : Response) (decoded : ResponseData τ μ) (htoken : orgToken ≠ "")
    (hdo : env.clientDo (auditRequest orgToken (sinceTimestamp env since)) = .ok resp)
    (hstatus : resp.StatusCode = 200) (hread : resp.readErr = none)
    (hdec : env.unmarshal resp.Body ⟨[]⟩ = (decoded, none))
    (hempty : decoded.Data.length = 0) :
    (run env orgToken since).stdout = "Fetching audit events...\nNo audit events found\n" ∧
    (run env orgToken since).status = Termination.exit 0 ∧
    (run env orgToken since).status.code = 0 ∧
    (run env orgToken since).tableCells = [] ∧
    (run env orgToken since).flexItems.length = 1 ∧
    ∃ w, (run env orgToken since).widgets = some w ∧ w.table.cells = [] ∧
      w.app.root = none ∧ w.app.focus = none ∧ w.app.inputCapture = none ∧
      w.app.ran = false := by
  have hd : (fetchAuditEvents env orgToken (sinceTimestamp env since)).data = some decoded := by
    rw [fetchAuditEvents_eq, hdo]
    simp [hstatus, hread, hdec]
  have he : (fetchAuditEvents env orgToken (sinceTimestamp env since)).err = none := by
    rw [fetchAuditEvents_eq, hdo]
    simp [hstatus, hread, hdec]
  have hrun : run env orgToken since =
      ⟨"Fetching audit events...\nNo audit events found\n",
        [FetchCall.mk orgToken (sinceTimestamp env since)],
        (fetchAuditEvents env orgToken (sinceTimestamp env since)).requests,
        some ⟨NewApplication, (NewTable.SetBorders false).SetSelectable false false,
          (NewFlex.SetDirection FlexDirection.FlexRow).AddItem
            (Primitive.textView ((NewTextView.SetText bannerText).SetDynamicColors true)) 1 1
            false⟩, Termination.exit 0⟩ := by
    unfold run
    rw [if_neg htoken]
    simp only [hd, he, hempty, if_true]
    rfl
  rw [hrun]
  exact ⟨rfl, rfl, rfl, rfl, rfl, _, rfl, rfl, rfl, rfl, rfl, rfl⟩

/-- Witness for C4: a 200 answer that decodes to no event. -/
theorem empty_result_exits_zero_witness :
    ("tok" ≠ "" ∧
      (fixtureEnv (.ok ⟨200, [], none⟩) [] none).clientDo
        (auditRequest "tok" (sinceTimestamp (fixtureEnv (.ok ⟨200, [], none⟩) [] none) 1)) =
          .ok ⟨200, [], none⟩ ∧
      (fixtureEnv (.ok ⟨200, [], none⟩) [] none).unmarshal [] ⟨[]⟩ = (⟨[]⟩, none)) ∧
    (run (fixtureEnv (.ok ⟨200, [], none⟩) [] none) "tok" 1).stdout =
      "Fetching audit events...\nNo audit events found\n" ∧
    (run (fixtureEnv (.ok ⟨200, [], none⟩) [] none) "tok" 1).status = Termination.exit 0 :=
  have h := empty_result_exits_zero (fixtureEnv (.ok ⟨200, [], none⟩) [] none) "tok" 1
    ⟨200, [], none⟩ ⟨[]⟩ (by decide) rfl rfl rfl rfl rfl
  ⟨⟨by decide, rfl, rfl⟩, h.1, h.2.1⟩

/-- C5. When the response has status 200 and the JSON decoder returns an error
for its body, `fetchAuditEvents` returns a nil result (whatever the decoder had
put in the target before it failed) and the decoder's error itself; and `run`,
called with a non-empty token, prints the line `Error fetching audit events:`
followed by the text of that error, and exits with code 1 with an empty table. -/
theorem decode_error_is_reported {τ μ : Type} (env : Env τ μ) (token ts : String)
    (resp : Response) (filled : ResponseData τ μ) (err : GoError)
    (hdo : env.clientDo (auditRequest token ts) = .ok resp)
    (hstatus : resp.StatusCode = 200) (hread : resp.readErr = none)
    (hdec : env.unmarshal resp.Body ⟨[]⟩ = (filled, some err)) :
    (fetchAuditEvents env token ts).data = none ∧
    (fetchAuditEvents env token ts).err = some err ∧
    ∀ since : Int, token ≠ "" → sinceTimestamp env since = ts →
      (run env token since).stdout =
        "Fetching audit events...\nError fetching audit events: " ++ err.msg ++ "\n" ∧
      err.msg.data <:+: (run env token since).stdout.data ∧
      (run env token since).status = Termination.exit 1 ∧
      (run env token since).status.code = 1 ∧
      (run env token since).tableCells = [] := by
  have hd : (fetchAuditEvents env token ts).data = none := by
    rw [fetchAuditEvents_eq, hdo]
    simp [hstatus, hread, hdec]
  have he : (fetchAuditEvents env token ts).err = some err := by
    rw [fetchAuditEvents_eq, hdo]
    simp [hstatus, hread, hdec]
  refine ⟨hd, he, ?_⟩
  intro since htoken hts
  have hout : (run env token since).stdout =
      "Fetching audit events...\nError fetching audit events: " ++ err.msg ++ "\n" := by
    unfold run
    rw [if_neg htoken]
    simp only [hts, he]
    apply String.ext
    simp [Println, String.data_append]
  refine ⟨hout, ?_, ?_, ?_, ?_⟩
  · rw [hout]
    simp only [String.data_append]
    exact ⟨_, _, rfl⟩
  · unfold run
    rw [if_neg htoken]
    simp only [hts, he]
  · unfold run
    rw [if_neg htoken]
    simp only [hts, he]
    rfl
  · unfold run
    rw [if_neg htoken]
    simp only [hts, he]
    rfl

/-- Witness for C5: the decoder fails after it has stored one event. -/
theorem decode_error_is_reported_witness :
    ((fixtureEnv (.ok ⟨200, [], none⟩) (fixtureEvents.take 1)
        (some ⟨"unexpected end of JSON input"⟩)).clientDo
        (auditRequest "tok" "day-99T10:00:00Z") = .ok ⟨200, [], none⟩ ∧
      (fixtureEnv (.ok ⟨200, [], none⟩) (fixtureEvents.take 1)
        (some ⟨"unexpected end of JSON input"⟩)).unmarshal [] ⟨[]⟩ =
          (⟨fixtureEvents.take 1⟩, some ⟨"unexpected end of JSON input"⟩)) ∧
    (fetchAuditEvents (fixtureEnv (.ok ⟨200, [], none⟩) (fixtureEvents.take 1)
        (some ⟨"unexpected end of JSON input"⟩)) "tok" "day-99T10:00:00Z").data = none ∧
    (run (fixtureEnv (.ok ⟨200, [], none⟩) (fixtureEvents.take 1)
        (some ⟨"unexpected end of JSON input"⟩)) "tok" 1).stdout =
      "Fetching audit events...\nError fetching audit events: unexpected end of JSON input\n" :=
  have h := decode_error_is_reported (fixtureEnv (.ok ⟨200, [], none⟩) (fixtureEvents.take 1)
    (some ⟨"unexpected end of JSON input"⟩)) "tok" "day-99T10:00:00Z" ⟨200, [], none⟩
    ⟨fixtureEvents.take 1⟩ ⟨"unexpected end of JSON input"⟩ rfl rfl rfl rfl
  ⟨⟨rfl, rfl⟩, h.1, (h.2.2 1 (by decide) (by decide)).1.trans (by decide)⟩
theorem run_fetchCalls {τ μ : Type} (env : Env τ μ) (orgToken : String) (since : Int)
    (htoken : orgToken ≠ "") :
    (run env orgToken since).fetchCalls = [⟨orgToken, sinceTimestamp env since⟩] ∧
    (run env orgToken since).requests = [auditRequest orgToken (sinceTimestamp env since)] := by
  have hreq : (fetchAuditEvents env orgToken (sinceTimestamp env since)).requests =
      [auditRequest orgToken (sinceTimestamp env since)] := by
    rw [fetchAuditEvents_eq]
    split
    · rfl
    · split
      · rfl
      · split
        · rfl
        · split <;> rfl
  unfold run
  rw [if_neg htoken]
  simp only [hreq]
  split
  · exact ⟨rfl, rfl⟩
  · exact ⟨rfl, rfl⟩
  · split
    · exact ⟨rfl, rfl⟩
    · split <;> exact ⟨rfl, rfl⟩

/-- C6. With the empty token, whatever the `since` flag, `run` prints the usage
error and exits with code 1 without a call of `fetchAuditEvents`, without a
request to the HTTP client and before any widget exists; and whatever the token,
every call of `fetchAuditEvents` that `run` makes has a non-empty token. -/
theorem empty_token_exits_before_fetch {τ μ : Type} (env : Env τ μ) (since : Int) :
    (run env "" since).stdout = "Error: organization token must be provided\n" ∧
    (run env "" since).status = Termination.exit 1 ∧
    (run env "" since).status.code = 1 ∧
    (run env "" since).fetchCalls = [] ∧
    (run env "" since).requests = [] ∧
    (run env "" since).widgets.isNone = true ∧
    ∀ (orgToken : String) (c : FetchCall), c ∈ (run env orgToken since).fetchCalls →
      c.token ≠ "" ∧ c.token = orgToken := by
  refine ⟨rfl, rfl, rfl, rfl, rfl, rfl, ?_⟩
  intro orgToken c hc
  by_cases htoken : orgToken = ""
  · subst htoken
    exact absurd hc (List.not_mem_nil c)
  · rw [(run_fetchCalls env orgToken since htoken).1] at hc
    simp only [List.mem_singleton] at hc
    subst hc
    exact ⟨htoken, rfl⟩

/-- Witness for C6: the empty token with the default `since`, and the one call
made with the token `tok`. -/
theorem empty_token_exits_before_fetch_witness :
    (run (fixtureEnv (.ok ⟨200, [], none⟩) fixtureEvents none) "" 1).fetchCalls = [] ∧
    (run (fixtureEnv (.ok ⟨200, [], none⟩) fixtureEvents none) "" 1).requests = [] ∧
    (run (fixtureEnv (.ok ⟨200, [], none⟩) fixtureEvents none) "" 1).status =
      Termination.exit 1 ∧
    (FetchCall.mk "tok" "day-99T10:00:00Z").token ≠ "" :=
  have h := empty_token_exits_before_fetch (fixtureEnv (.ok ⟨200, [], none⟩) fixtureEvents none) 1
  ⟨h.2.2.2.1, h.2.2.2.2.1, h.2.1,
    (h.2.2.2.2.2.2 "tok" ⟨"tok", "day-99T10:00:00Z"⟩
      (by simp [run, fetchAuditEvents_eq, fixtureEnv, sinceTimestamp]; decide)).1⟩
/-- C8, as stated, fails: for the timestamp `2024-01-01T00:00:00Z` the URL of
the request is not the endpoint followed by `?since=2024-01-01T00:00:00Z`; the
colons of the timestamp are sent as `%3A`. -/
theorem url_is_not_the_raw_timestamp :
    (fetchAuditEvents (fixtureEnv (.ok ⟨200, [], none⟩) fixtureEvents none) "tok"
        "2024-01-01T00:00:00Z").requests.map HttpRequest.urlString =
      ["https://app.terraform.io/api/v2/organization/audit-trail?since=2024-01-01T00%3A00%3A00Z"] ∧
    (fetchAuditEvents (fixtureEnv (.ok ⟨200, [], none⟩) fixtureEvents none) "tok"
        "2024-01-01T00:00:00Z").requests.map HttpRequest.urlString ≠
      ["https://app.terraform.io/api/v2/organization/audit-trail?since=" ++
        "2024-01-01T00:00:00Z"] := by
  have h : (fetchAuditEvents (fixtureEnv (.ok ⟨200, [], none⟩) fixtureEvents none) "tok"
      "2024-01-01T00:00:00Z").requests.map HttpRequest.urlString =
      ["https://app.terraform.io/api/v2/organization/audit-trail?since=2024-01-01T00%3A00%3A00Z"] := by
    rfl
  rw [h]
  exact ⟨rfl, by decide⟩

/-- C8, amended. For every token and every `since` string, `fetchAuditEvents`
hands exactly one request to the HTTP client: a GET whose URL is the endpoint
followed by `?since=` and the query-escaped timestamp (`url.QueryEscape`, so a
colon is sent as `%3A` and a plus sign as `%2B`), whose query decodes to the
single parameter `since` with the supplied timestamp as its single value, and
whose only header is `Authorization` with the value `Bearer ` followed by the
token. -/
theorem fetch_builds_one_get_request {τ μ : Type} (env : Env τ μ) (token since : String) :
    ∃ req, (fetchAuditEvents env token since).requests = [req] ∧
      req.Method = "GET" ∧
      req.urlString = terraformAPIURL ++ "?since=" ++ QueryEscape since ∧
      req.URL.Query = [("since", [since])] ∧
      req.Header = [("Authorization", ["Bearer " ++ token])] ∧
      req.Header.Get "Authorization" = "Bearer " ++ token := by
  have hreq : (fetchAuditEvents env token since).requests = [auditRequest token since] := by
    rw [fetchAuditEvents_eq]
    split
    · rfl
    · split
      · rfl
      · split
        · rfl
        · split <;> rfl
  have hk : CanonicalMIMEHeaderKey "Authorization" = "Authorization" := by decide
  refine ⟨_, hreq, rfl, ?_, parseQuery_since since, rfl, ?_⟩
  · unfold HttpRequest.urlString auditRequest
    rw [urlString_built]
    apply String.ext
    simp [String.data_append]
  · simp [Header.Get, auditRequest, hk]
/-- C9, as stated, fails: the text of the banner is not
`use arrow keys to scroll | press escape to exit`. -/
theorem banner_text_differs :
    (run (fixtureEnv (.ok ⟨200, [], none⟩) fixtureEvents none) "tok" 1).flexItems.head?.bind
        FlexItem.text? = some "Use arrow keys to scroll | Press ESC to exit" ∧
    (run (fixtureEnv (.ok ⟨200, [], none⟩) fixtureEvents none) "tok" 1).flexItems.head?.bind
        FlexItem.text? ≠ some "use arrow keys to scroll | press escape to exit" := by
  have h : (run (fixtureEnv (.ok ⟨200, [], none⟩) fixtureEvents none) "tok" 1).flexItems.head?.bind
      FlexItem.text? = some "Use arrow keys to scroll | Press ESC to exit" := by
    obtain ⟨w, hw, _, hf, _⟩ := run_viewer (fixtureEnv (.ok ⟨200, [], none⟩) fixtureEvents none)
      "tok" 1 fixtureEvents (by decide) (by simp [fetchAuditEvents_eq, fixtureEnv])
      (by simp [fetchAuditEvents_eq, fixtureEnv]) (by decide)
    unfold RunResult.flexItems
    rw [hw]
    simp only
    rw [hf]
    rfl
  rw [h]
  exact ⟨rfl, by decide⟩

/-- C9, amended. When the fetch succeeds with a non-empty list of events, the
layout `run` builds stacks its items in rows and has exactly two items: first the
help banner, a text view with the text
`Use arrow keys to scroll | Press ESC to exit`, of fixed size one line and not
taking focus; second the table, of flexible size and taking focus. The layout is
the full-screen root of the application and the focus is set to the table. -/
theorem layout_is_banner_then_table {τ μ : Type} (env : Env τ μ) (orgToken : String)
    (since : Int) (events : List (AuditEvent τ μ)) (htoken : orgToken ≠ "")
    (hdata : (fetchAuditEvents env orgToken (sinceTimestamp env since)).data = some ⟨events⟩)
    (herr : (fetchAuditEvents env orgToken (sinceTimestamp env since)).err = none)
    (hne : 1 ≤ events.length) :
    ∃ w, (run env orgToken since).widgets = some w ∧
      w.flex.direction = FlexDirection.FlexRow ∧
      w.flex.items =
        [⟨Primitive.textView ⟨"Use arrow keys to scroll | Press ESC to exit", true⟩, 1, 1, false⟩,
         ⟨Primitive.table w.table, 0, 1, true⟩] ∧
      w.app.root = some w.flex ∧ w.app.rootFullscreen = true ∧
      w.app.focus = some (FocusTarget.primitive (Primitive.table w.table)) := by
  obtain ⟨w, hw, _, hf, hroot, hfull, hfocus, _⟩ :=
    run_viewer env orgToken since events htoken hdata herr hne
  refine ⟨w, hw, ?_, ?_, hroot, hfull, hfocus⟩
  · rw [hf]; rfl
  · rw [hf]; rfl

/-- Witness for C9: the layout for the fixture has two items, the banner first. -/
theorem layout_is_banner_then_table_witness :
    ("tok" ≠ "" ∧ 1 ≤ fixtureEvents.length ∧
      (fetchAuditEvents (fixtureEnv (.ok ⟨200, [], none⟩) fixtureEvents none) "tok"
        (sinceTimestamp (fixtureEnv (.ok ⟨200, [], none⟩) fixtureEvents none) 1)).err = none) ∧
    ∃ w, (run (fixtureEnv (.ok ⟨200, [], none⟩) fixtureEvents none) "tok" 1).widgets = some w ∧
      w.flex.direction = FlexDirection.FlexRow ∧
      w.flex.items =
        [⟨Primitive.textView ⟨"Use arrow keys to scroll | Press ESC to exit", true⟩, 1, 1, false⟩,
         ⟨Primitive.table w.table, 0, 1, true⟩] ∧
      w.app.root = some w.flex ∧ w.app.rootFullscreen = true ∧
      w.app.focus = some (FocusTarget.primitive (Primitive.table w.table)) :=
  ⟨⟨by decide, by decide, by simp [fetchAuditEvents_eq, fixtureEnv]⟩,
    layout_is_banner_then_table (fixtureEnv (.ok ⟨200, [], none⟩) fixtureEvents none) "tok" 1
      fixtureEvents (by decide) (by simp [fetchAuditEvents_eq, fixtureEnv])
      (by simp [fetchAuditEvents_eq, fixtureEnv]) (by decide)⟩

/-- C10. When the fetch succeeds with a non-empty list of events, `run` installs
a key handler, and for every key event that handler returns the same event
unchanged and calls `app.Stop()` exactly when the key is Escape: once for Escape,
not at all for any other key. -/
theorem key_handler_stops_on_escape_only {τ μ : Type} (env : Env τ μ) (orgToken : String)
    (since : Int) (events : List (AuditEvent τ μ)) (htoken : orgToken ≠ "")
    (hdata : (fetchAuditEvents env orgToken (sinceTimestamp env since)).data = some ⟨events⟩)
    (herr : (fetchAuditEvents env orgToken (sinceTimestamp env since)).err = none)
    (hne : 1 ≤ events.length) :
    ∃ w handler, (run env orgToken since).widgets = some w ∧
      w.app.inputCapture = some handler ∧
      ∀ event : EventKey,
        (handler event).2 = event ∧
        (AppCall.Stop ∈ (handler event).1 ↔ event.Key = KeyEscape) ∧
        (event.Key = KeyEscape → (handler event).1 = [AppCall.Stop]) ∧
        (event.Key ≠ KeyEscape → (handler event).1 = []) := by
  obtain ⟨w, hw, _, _, _, _, _, hcap, _⟩ :=
    run_viewer env orgToken since events htoken hdata herr hne
  refine ⟨w, inputCapture, hw, hcap, ?_⟩
  intro event
  unfold inputCapture
  by_cases hk : event.Key = KeyEscape <;> simp [hk]

/-- Witness for C10: the handler of the fixture run on the Escape key. -/
theorem key_handler_stops_on_escape_only_witness :
    ("tok" ≠ "" ∧ 1 ≤ fixtureEvents.length ∧
      (fetchAuditEvents (fixtureEnv (.ok ⟨200, [], none⟩) fixtureEvents none) "tok"
        (sinceTimestamp (fixtureEnv (.ok ⟨200, [], none⟩) fixtureEvents none) 1)).err = none) ∧
    ∃ w handler,
      (run (fixtureEnv (.ok ⟨200, [], none⟩) fixtureEvents none) "tok" 1).widgets = some w ∧
      w.app.inputCapture = some handler ∧
      ∀ event : EventKey,
        (handler event).2 = event ∧
        (AppCall.Stop ∈ (handler event).1 ↔ event.Key = KeyEscape) ∧
        (event.Key = KeyEscape → (handler event).1 = [AppCall.Stop]) ∧
        (event.Key ≠ KeyEscape → (handler event).1 = []) :=
  ⟨⟨by decide, by decide, by simp [fetchAuditEvents_eq, fixtureEnv]⟩,
    key_handler_stops_on_escape_only (fixtureEnv (.ok ⟨200, [], none⟩) fixtureEvents none) "tok" 1
      fixtureEvents (by decide) (by simp [fetchAuditEvents_eq, fixtureEnv])
      (by simp [fetchAuditEvents_eq, fixtureEnv]) (by decide)⟩

end TfAudit
